import Mathlib

/-!
Shallow embedding of the event-ingestion admission gate of `sentry/web/api.py`:
the three-path credential resolver, the signature engine, the payload decode
chain, the tenant-consistency check and the timestamp normalisation, together
with executable models of the external collaborators the module imports
(base64, zlib, the JSON library, the tenant directory, the clock and the
storage interface).  Requests, byte payloads and decoded records are concrete
data; every operation is an executable function, and failures are values of an
explicit exception type distinguishing handled `APIError`s from unhandled
Python exceptions.
-/

namespace Sentry

/-- A Python exception reduced to its class name and message. -/
structure PyExc where
  name : String
  msg : String
  deriving DecidableEq

/-- Result of Python `float()`: finite values as rationals plus the special
    floating values. -/
inductive PyFloat where
  | finite (q : ℚ)
  | inf
  | ninf
  | nan
  deriving DecidableEq

/-- Modelled from the spec: the base64 alphabet of the external `base64`
    module, as byte values. -/
def encChar (i : Nat) : Nat :=
  if i < 26 then i + 65
  else if i < 52 then i + 71
  else if i < 62 then i - 4
  else if i = 62 then 43 else 47

/-- Inverse of the base64 alphabet; `none` for bytes outside it. -/
def decChar (c : Nat) : Option Nat :=
  if 65 ≤ c ∧ c ≤ 90 then some (c - 65)
  else if 97 ≤ c ∧ c ≤ 122 then some (c - 71)
  else if 48 ≤ c ∧ c ≤ 57 then some (c + 4)
  else if c = 43 then some 62
  else if c = 47 then some 63
  else none

/-- A byte the Python 2 base64 decoder does not discard: an alphabet byte or
    the padding byte `=` (61). -/
def isB64 (c : Nat) : Bool := (decChar c).isSome || c == 61

/-- Modelled from the spec: `base64.b64encode` over byte lists. -/
def b64encode : List Nat → List Nat
  | [] => []
  | [a] => [encChar (a / 4), encChar (a % 4 * 16), 61, 61]
  | [a, b] => [encChar (a / 4), encChar (a % 4 * 16 + b / 16), encChar (b % 16 * 4), 61]
  | a :: b :: c :: rest =>
      encChar (a / 4) :: encChar (a % 4 * 16 + b / 16) ::
      encChar (b % 16 * 4 + c / 64) :: encChar (c % 64) :: b64encode rest

/-- Decode a filtered base64 stream four characters at a time, honouring `=`
    padding in the final group. -/
def b64groups : List Nat → Except PyExc (List Nat)
  | [] => .ok []
  | c1 :: c2 :: c3 :: c4 :: rest =>
      match decChar c1, decChar c2 with
      | some x1, some x2 =>
          if c3 = 61 then .ok [x1 * 4 + x2 / 16]
          else
            match decChar c3 with
            | some x3 =>
                if c4 = 61 then .ok [x1 * 4 + x2 / 16, x2 % 16 * 16 + x3 / 4]
                else
                  match decChar c4 with
                  | some x4 =>
                      (b64groups rest).map
                        (fun tl => (x1 * 4 + x2 / 16) :: (x2 % 16 * 16 + x3 / 4) ::
                          (x3 % 4 * 64 + x4) :: tl)
                  | none => .error ⟨"Error", "Invalid padding"⟩
            | none => .error ⟨"Error", "Invalid padding"⟩
      | _, _ => .error ⟨"Error", "Invalid padding"⟩
  | _ => .error ⟨"Error", "Incorrect padding"⟩

/-- Modelled from the spec: Python 2 `base64.b64decode` — bytes outside the
    alphabet are ignored, and a filtered length not divisible by four raises
    `binascii.Error` (class name `Error`) with `Incorrect padding`. -/
def b64decode (input : List Nat) : Except PyExc (List Nat) :=
  let f := input.filter isB64
  if f.length % 4 = 0 then b64groups f
  else .error ⟨"Error", "Incorrect padding"⟩

/-- Modelled from the spec: the zlib/deflate codec of the external `zlib`
    module; a compressed stream is the two-byte zlib header followed by the
    payload. -/
def zlibCompress (x : List Nat) : List Nat := 120 :: 156 :: x

/-- Modelled from the spec: zlib decompression; bytes lacking the zlib header
    raise `zlib.error`, represented by `none`. -/
def zlibDecompress (y : List Nat) : Option (List Nat) :=
  match y with
  | a :: b :: rest => if a = 120 ∧ b = 156 then some rest else none
  | _ => none

/-- A Python `datetime.datetime` instant: either converted from an epoch
    number or built from parsed calendar fields. -/
inductive PyDatetime where
  | ofEpoch (q : ℚ)
  | ofParts (year month day hour minute second usec : Nat)
  deriving DecidableEq

/-- A decoded JSON-style value as it appears in a submission record, plus the
    native instant type a timestamp may be normalised to. -/
inductive JVal where
  | null
  | bool (b : Bool)
  | int (n : ℤ)
  | float (q : ℚ)
  | str (s : String)
  | arr (xs : List JVal)
  | obj (kvs : List (String × JVal))
  | dt (d : PyDatetime)

/-- A decoded record: the string-keyed mapping handed through the pipeline. -/
abbrev RecordT := List (String × JVal)

def lookupRec (l : RecordT) (k : String) : Option JVal :=
  (l.find? (fun p => p.1 == k)).map (fun p => p.2)

def containsKey (l : RecordT) (k : String) : Bool :=
  l.any (fun p => p.1 == k)

def setRec (l : RecordT) (k : String) (v : JVal) : RecordT :=
  if containsKey l k then l.map (fun p => if p.1 == k then (k, v) else p)
  else l ++ [(k, v)]

def eraseRec (l : RecordT) (k : String) : RecordT :=
  l.filter (fun p => p.1 != k)

/-- `APIError` and its subclasses, reduced to HTTP status plus message. -/
structure APIErr where
  status : Nat
  msg : String
  deriving DecidableEq

def APIErrorE (m : String) : APIErr := ⟨400, m⟩

def APIUnauthorizedE : APIErr := ⟨401, "Unauthorized"⟩

def APIForbiddenE (m : String) : APIErr := ⟨403, m⟩

def APITimestampExpiredE (m : String) : APIErr := ⟨410, m⟩

/-- What escapes the view function: an `APIError` (handled in `store`) or an
    unhandled Python exception, recorded by its class name. -/
inductive Exc where
  | api (e : APIErr)
  | uncaught (name : String)
  deriving DecidableEq

structure HttpResponse where
  body : String
  status : Nat
  deriving DecidableEq

/-! ### Python `float()` on strings -/

def digitsNat (cs : List Char) : Nat :=
  cs.foldl (fun acc c => acc * 10 + (c.toNat - 48)) 0

def isWsChar (c : Char) : Bool := c == ' ' || c == '\t' || c == '\n' || c == '\r'

def stripWs (cs : List Char) : List Char :=
  ((cs.dropWhile isWsChar).reverse.dropWhile isWsChar).reverse

def tenPowZ (z : ℤ) : ℚ :=
  if 0 ≤ z then ((10 : ℚ) ^ z.toNat) else ((10 : ℚ) ^ (-z).toNat)⁻¹

def parseExpPart (cs : List Char) : Option ℤ :=
  let (sgn, body) :=
    match cs with
    | '+' :: r => ((1 : ℤ), r)
    | '-' :: r => ((-1 : ℤ), r)
    | r => ((1 : ℤ), r)
  if body.isEmpty then none
  else if body.all Char.isDigit then some (sgn * (digitsNat body : ℤ)) else none

def parseMantissa (cs : List Char) : Option (ℚ × List Char) :=
  let ip := cs.takeWhile Char.isDigit
  let rest := cs.dropWhile Char.isDigit
  match rest with
  | '.' :: rest2 =>
      let fp := rest2.takeWhile Char.isDigit
      let rest3 := rest2.dropWhile Char.isDigit
      if ip.isEmpty && fp.isEmpty then none
      else some ((digitsNat ip : ℚ) + (digitsNat fp : ℚ) / (10 : ℚ) ^ fp.length, rest3)
  | _ => if ip.isEmpty then none else some ((digitsNat ip : ℚ), rest)

/-- Modelled from the spec: Python `float(str)` — optional sign, a decimal
    mantissa, an optional exponent, the special words, and surrounding
    whitespace; anything else raises `ValueError` (`none`). -/
def pyFloatParse (s : String) : Option PyFloat :=
  let cs := stripWs s.data
  let (neg, body) :=
    match cs with
    | '+' :: r => (false, r)
    | '-' :: r => (true, r)
    | r => (false, r)
  let low := body.map Char.toLower
  if low = "inf".data ∨ low = "infinity".data then some (if neg then .ninf else .inf)
  else if low = "nan".data then some .nan
  else
    match parseMantissa body with
    | none => none
    | some (m, rest) =>
        match rest with
        | [] => some (.finite (if neg then -m else m))
        | c :: rest2 =>
            if c = 'e' ∨ c = 'E' then
              match parseExpPart rest2 with
              | some z => some (.finite ((if neg then -m else m) * tenPowZ z))
              | none => none
            else none

/-- The comparison `timestamp_float < bound` under Python float ordering. -/
def pyLt (a : PyFloat) (b : ℚ) : Bool :=
  match a with
  | .finite q => decide (q < b)
  | .inf => false
  | .ninf => true
  | .nan => false

/-! ### Signature engine and tenant directory -/

/-- Modelled from the spec: the Signature Engine's keyed MAC
    (`sentry.utils.auth.get_signature`), an opaque injective digest over the
    key, the timestamp and the message bytes. -/
def get_signature (message : List Nat) (timestamp : String) (key : String) : String :=
  "hmac:" ++ key ++ ":" ++ timestamp ++ ":" ++
    String.intercalate "," (message.map (fun b => toString b))

/-- `validate_hmac(message, signature, timestamp, secret_key)`, with the clock
    reading `time.time()` passed explicitly as `now`. -/
def validate_hmac (now : ℚ) (message : List Nat) (signature timestamp secret_key : String) :
    Except Exc Unit :=
  match pyFloatParse timestamp with
  | none => .error (.api (APIErrorE "Invalid timestamp"))
  | some tf =>
      if pyLt tf (now - 3600) then .error (.api (APITimestampExpiredE "Message has expired"))
      else if get_signature message timestamp secret_key ≠ signature then
        .error (.api (APIForbiddenE "Invalid signature"))
      else .ok ()

structure Project where
  pk : Nat
  deriving DecidableEq

/-- Modelled from the spec: a tenant-directory entry
    (`sentry.models.ProjectMember`): api key, per-key secret, owning user,
    permission bits and tenant. -/
structure ProjectMember where
  api_key : String
  secret_key : String
  user : String
  perms : List String
  project : Project

def hasPerm (pm : ProjectMember) (p : String) : Bool := pm.perms.contains p

/-- The ambient environment: the tenant directory, the shared master secret
    `settings.KEY`, the clock, and the storage interface
    (`Group.objects.from_kwargs`, returning a validation-error message on
    malformed interface data). -/
structure Env where
  db : List ProjectMember
  key : String
  now : ℚ
  storage : RecordT → Option String

def findByKey (db : List ProjectMember) (k : String) : Option ProjectMember :=
  db.find? (fun m => m.api_key == k)

def findByKeyAndId (db : List ProjectMember) (k pid : String) : Option ProjectMember :=
  db.find? (fun m => m.api_key == k && toString m.project.pk == pid)

def findByUserAndId (db : List ProjectMember) (u pid : String) : Option ProjectMember :=
  db.find? (fun m => m.user == u && toString m.project.pk == pid)

/-! ### Requests and the signed-credential header -/

/-- An inbound request: header map (`request.META`), query parameters
    (`request.GET`), transport and session flags, and the raw body bytes. -/
structure Request where
  meta : List (String × String)
  queryGET : List (String × String)
  is_secure : Bool
  user_authenticated : Bool
  user : String
  raw_post_data : List Nat

def assocGet (l : List (String × String)) (k : String) : Option String :=
  (l.find? (fun p => p.1 == k)).map (fun p => p.2)

/-- Python truthiness of `dict.get(key)` for string values: present and
    non-empty. -/
def truthyOpt (o : Option String) : Bool :=
  match o with
  | some s => s != ""
  | none => false

def splitCommaSpace : List Char → List Char → List (List Char)
  | [], acc => [acc.reverse]
  | ',' :: ' ' :: rest, acc => acc.reverse :: splitCommaSpace rest []
  | c :: rest, acc => splitCommaSpace rest (c :: acc)

def splitOnChar (sep : Char) : List Char → List Char → List (List Char)
  | [], acc => [acc.reverse]
  | c :: rest, acc =>
      if c = sep then acc.reverse :: splitOnChar sep rest []
      else splitOnChar sep rest (c :: acc)

/-- Modelled from the spec: `parse_auth_header` (`sentry.utils.auth`) — strip
    the `Sentry ` prefix and split the comma/space-delimited `key=value`
    fields. -/
def parse_auth_header (h : String) : List (String × String) :=
  (splitCommaSpace (h.data.drop 7) []).filterMap (fun kv =>
    match splitOnChar '=' kv [] with
    | [k, v] => some (String.mk k, String.mk v)
    | _ => none)

def strStarts (s pre : String) : Bool := pre.data.isPrefixOf s.data

/-- `extract_auth_vars`: version-3 header first, then the version-2 header,
    both recognised by their `Sentry` prefix. -/
def extract_auth_vars (r : Request) : Option (List (String × String)) :=
  if strStarts ((assocGet r.meta "HTTP_X_SENTRY_AUTH").getD "") "Sentry" then
    some (parse_auth_header ((assocGet r.meta "HTTP_X_SENTRY_AUTH").getD ""))
  else if strStarts ((assocGet r.meta "HTTP_AUTHORIZATION").getD "") "Sentry" then
    some (parse_auth_header ((assocGet r.meta "HTTP_AUTHORIZATION").getD ""))
  else none

/-- Python truthiness of the `auth_vars` value in `store`: a parsed header
    dictionary that is not `None` and not empty. -/
def truthyAV (o : Option (List (String × String))) : Bool :=
  match o with
  | some l => !l.isEmpty
  | none => false

/-! ### The three credential-path resolvers -/

def avGet (av : List (String × String)) (k : String) : Option String := assocGet av k

/-- `project_from_auth_vars`: the signed-header path. -/
def project_from_auth_vars (env : Env) (av : List (String × String)) (data : List Nat) :
    Except Exc (Option Project) :=
  let signature := avGet av "sentry_signature"
  let timestamp := avGet av "sentry_timestamp"
  let api_key := avGet av "sentry_key"
  if !truthyOpt signature || !truthyOpt timestamp then .error (.api APIUnauthorizedE)
  else if truthyOpt api_key then
    match findByKey env.db (api_key.getD "") with
    | none => .error (.api (APIForbiddenE "Invalid signature"))
    | some pm =>
        if !hasPerm pm "add_message" then .error (.api (APIForbiddenE "Invalid signature"))
        else
          (validate_hmac env.now data (signature.getD "") (timestamp.getD "")
            pm.secret_key).map (fun _ => some pm.project)
  else
    (validate_hmac env.now data (signature.getD "") (timestamp.getD "") env.key).map
      (fun _ => none)

/-- `project_from_api_key_and_id`: the API-key-over-TLS path.  The permission
    check sits outside the `except ProjectMember.DoesNotExist` handler, so a
    member without the permission raises an unhandled `DoesNotExist`. -/
def project_from_api_key_and_id (env : Env) (api_key project_id : String) :
    Except Exc Project :=
  match findByKeyAndId env.db api_key project_id with
  | none => .error (.api APIUnauthorizedE)
  | some pm =>
      if !hasPerm pm "add_message" then .error (.uncaught "DoesNotExist")
      else .ok pm.project

/-- `project_from_id`: the authenticated-session path. -/
def project_from_id (env : Env) (r : Request) : Except Exc Project :=
  match findByUserAndId env.db r.user ((assocGet r.queryGET "project_id").getD "") with
  | none => .error (.api APIUnauthorizedE)
  | some pm => .ok pm.project

/-! ### Payload decoding -/

/-- `decode_and_decompress_data`: base64-decode, try zlib decompression, fall
    back to the raw decoded bytes on `zlib.error`; base64 failures collapse to
    `APIForbidden` embedding the exception class name and message. -/
def decode_and_decompress_data (encoded_data : List Nat) : Except Exc (List Nat) :=
  match b64decode encoded_data with
  | .error e =>
      .error (.api (APIForbiddenE
        ("Bad data decoding request (" ++ e.name ++ ", " ++ e.msg ++ ")")))
  | .ok d =>
      match zlibDecompress d with
      | some unzipped => .ok unzipped
      | none => .ok d

/-! ### JSON parsing (model of the external JSON library) -/

def jsonWs (b : Nat) : Bool := b == 32 || b == 9 || b == 10 || b == 13

def skipWs (bs : List Nat) : List Nat := bs.dropWhile jsonWs

def isDigitByte (b : Nat) : Bool := decide (48 ≤ b) && decide (b ≤ 57)

def digitsNatBytes (bs : List Nat) : Nat :=
  bs.foldl (fun acc b => acc * 10 + (b - 48)) 0

/-- Parse a JSON string body (after the opening quote), with a simplified
    single-character escape rule. -/
def jstrBytes : List Nat → List Char → Except PyExc (String × List Nat)
  | [], _ => .error ⟨"ValueError", "Unterminated string"⟩
  | 34 :: rest, acc => .ok (String.mk acc.reverse, rest)
  | 92 :: c :: rest, acc => jstrBytes rest (Char.ofNat c :: acc)
  | c :: rest, acc => jstrBytes rest (Char.ofNat c :: acc)

def jexpParse (bs : List Nat) : Option (ℤ × List Nat) :=
  match bs with
  | b :: r =>
      if b = 101 ∨ b = 69 then
        let (sgn, r2) :=
          match r with
          | 43 :: rr => ((1 : ℤ), rr)
          | 45 :: rr => ((-1 : ℤ), rr)
          | rr => ((1 : ℤ), rr)
        let ds := r2.takeWhile isDigitByte
        let r3 := r2.dropWhile isDigitByte
        if ds.isEmpty then none else some (sgn * (digitsNatBytes ds : ℤ), r3)
      else none
  | [] => none

/-- Parse a JSON number: integers stay integers, a fraction or exponent makes
    a float. -/
def jnumParse (bs : List Nat) : Except PyExc (JVal × List Nat) :=
  let (neg, b1) :=
    match bs with
    | 45 :: r => (true, r)
    | r => (false, r)
  let ip := b1.takeWhile isDigitByte
  let r2 := b1.dropWhile isDigitByte
  if ip.isEmpty then .error ⟨"ValueError", "No JSON object could be decoded"⟩
  else
    match r2 with
    | 46 :: r3 =>
        let fp := r3.takeWhile isDigitByte
        let r4 := r3.dropWhile isDigitByte
        if fp.isEmpty then .error ⟨"ValueError", "No JSON object could be decoded"⟩
        else
          let m : ℚ := (digitsNatBytes ip : ℚ) + (digitsNatBytes fp : ℚ) / (10 : ℚ) ^ fp.length
          match jexpParse r4 with
          | some (z, r5) => .ok (.float ((if neg then -m else m) * tenPowZ z), r5)
          | none => .ok (.float (if neg then -m else m), r4)
    | _ =>
        match jexpParse r2 with
        | some (z, r5) =>
            let m : ℚ := (digitsNatBytes ip : ℚ)
            .ok (.float ((if neg then -m else m) * tenPowZ z), r5)
        | none =>
            let n : ℤ := (digitsNatBytes ip : ℤ)
            .ok (.int (if neg then -n else n), r2)

mutual

def jparse : Nat → List Nat → Except PyExc (JVal × List Nat)
  | 0, _ => .error ⟨"ValueError", "No JSON object could be decoded"⟩
  | fuel + 1, input =>
      match skipWs input with
      | [] => .error ⟨"ValueError", "No JSON object could be decoded"⟩
      | b :: rest =>
          if b = 123 then jobjParse fuel rest []
          else if b = 91 then jarrParse fuel rest []
          else if b = 34 then
            match jstrBytes rest [] with
            | .ok (s, r) => .ok (.str s, r)
            | .error e => .error e
          else if b = 110 then
            match rest with
            | 117 :: 108 :: 108 :: r => .ok (.null, r)
            | _ => .error ⟨"ValueError", "No JSON object could be decoded"⟩
          else if b = 116 then
            match rest with
            | 114 :: 117 :: 101 :: r => .ok (.bool true, r)
            | _ => .error ⟨"ValueError", "No JSON object could be decoded"⟩
          else if b = 102 then
            match rest with
            | 97 :: 108 :: 115 :: 101 :: r => .ok (.bool false, r)
            | _ => .error ⟨"ValueError", "No JSON object could be decoded"⟩
          else if isDigitByte b || b == 45 then jnumParse (b :: rest)
          else .error ⟨"ValueError", "No JSON object could be decoded"⟩

def jobjParse : Nat → List Nat → List (String × JVal) → Except PyExc (JVal × List Nat)
  | 0, _, _ => .error ⟨"ValueError", "No JSON object could be decoded"⟩
  | fuel + 1, input, acc =>
      match skipWs input with
      | 125 :: r => .ok (.obj acc.reverse, r)
      | 34 :: r =>
          match jstrBytes r [] with
          | .error e => .error e
          | .ok (k, r2) =>
              match skipWs r2 with
              | 58 :: r3 =>
                  match jparse fuel r3 with
                  | .error e => .error e
                  | .ok (v, r4) =>
                      match skipWs r4 with
                      | 44 :: r5 => jobjParse fuel r5 ((k, v) :: acc)
                      | 125 :: r5 => .ok (.obj ((k, v) :: acc).reverse, r5)
                      | _ => .error ⟨"ValueError", "Expecting delimiter"⟩
              | _ => .error ⟨"ValueError", "Expecting property name"⟩
      | _ => .error ⟨"ValueError", "Expecting property name"⟩

def jarrParse : Nat → List Nat → List JVal → Except PyExc (JVal × List Nat)
  | 0, _, _ => .error ⟨"ValueError", "No JSON object could be decoded"⟩
  | fuel + 1, input, acc =>
      match skipWs input with
      | 93 :: r => .ok (.arr acc.reverse, r)
      | _ =>
          match jparse fuel (skipWs input) with
          | .error e => .error e
          | .ok (v, r2) =>
              match skipWs r2 with
              | 44 :: r3 => jarrParse fuel r3 (v :: acc)
              | 93 :: r3 => .ok (.arr (v :: acc).reverse, r3)
              | _ => .error ⟨"ValueError", "Expecting delimiter"⟩

end

/-- Modelled from the spec: the JSON library (`sentry.utils.json.loads`),
    parsing bytes into a JSON value or raising `ValueError`. -/
def jsonLoads (bs : List Nat) : Except PyExc JVal :=
  match jparse (2 * bs.length + 4) bs with
  | .error e => .error e
  | .ok (v, rest) =>
      if (skipWs rest).isEmpty then .ok v
      else .error ⟨"ValueError", "Extra data"⟩

/-- Modelled from the spec: `smart_str` byte-string coercion, the identity on
    string keys. -/
def smart_str (s : String) : String := s

/-- `safely_load_json_string`: parse failures collapse to `APIForbidden`;
    the key coercion `obj.iteritems()` sits outside the handler, so a decoded
    non-mapping raises an unhandled `AttributeError`. -/
def safely_load_json_string (json_string : List Nat) : Except Exc RecordT :=
  match jsonLoads json_string with
  | .error e =>
      .error (.api (APIForbiddenE
        ("Bad data reconstructing object (" ++ e.name ++ ", " ++ e.msg ++ ")")))
  | .ok (.obj kvs) => .ok (kvs.map (fun p => (smart_str p.1, p.2)))
  | .ok _ => .error (.uncaught "AttributeError")

/-! ### Tenant-consistency check -/

/-- Modelled from the spec: canonical string form (Python `str`) of a record
    value, exact on the strings, integers and booleans the comparison can
    meet; container values get constant markers that never collide with a
    numeric tenant identifier. -/
def pyStr : JVal → String
  | .str s => s
  | .int n => toString n
  | .float q => if q.den = 1 then toString q.num ++ ".0" else toString q.num ++ "/" ++ toString q.den
  | .bool b => if b then "True" else "False"
  | .null => "None"
  | .dt _ => "datetime.datetime"
  | .arr _ => "[list]"
  | .obj _ => "[dict]"

/-- `ensure_valid_project_id`: with a resolved tenant, compare
    `str(data.get('project', ''))` with `str(project.pk)`; with none, force
    `data['project'] = 1`. -/
def ensure_valid_project_id (desired_project : Option Project) (data : RecordT) :
    Except Exc RecordT :=
  match desired_project with
  | some p =>
      if (match lookupRec data "project" with
          | some v => pyStr v
          | none => "") ≠ toString p.pk then
        .error (.api (APIForbiddenE "Invalid credentials"))
      else .ok data
  | none => .ok (setRec data "project" (.int 1))

/-! ### Timestamp normalisation -/

/-- Modelled from the spec: `is_float` (`sentry.utils`, not under src) — the
    spec's step reads "if it is numeric, convert from a Unix-epoch number",
    so a numeric-type test. -/
def is_float (v : JVal) : Bool :=
  match v with
  | .int _ => true
  | .float _ => true
  | _ => false

def numVal : JVal → ℚ
  | .int n => (n : ℚ)
  | .float q => q
  | _ => 0

/-- Modelled from the spec: `datetime.datetime.fromtimestamp` — converts an
    epoch number to an absolute instant, raising (`none`) outside the
    representable year range. -/
def fromtimestamp (q : ℚ) : Option PyDatetime :=
  if -62135596800 ≤ q ∧ q ≤ 253402300799 then some (.ofEpoch q) else none

/-- Python `in` on a record value (`'.' in data['timestamp']`): substring
    membership for strings, element membership for containers, `TypeError`
    (`none`) otherwise. -/
def pyContains (v : JVal) (c : Char) : Option Bool :=
  match v with
  | .str s => some (s.data.contains c)
  | .arr xs => some (xs.any (fun x => match x with
      | .str t => t == String.mk [c]
      | _ => false))
  | .obj kvs => some (kvs.any (fun p => p.1 == String.mk [c]))
  | _ => none

def monthDays (y m : Nat) : Nat :=
  if m = 2 then (if (y % 4 = 0 ∧ y % 100 ≠ 0) ∨ y % 400 = 0 then 29 else 28)
  else if m = 4 ∨ m = 6 ∨ m = 9 ∨ m = 11 then 30 else 31

def digitOf (c : Char) : Option Nat :=
  if c.isDigit then some (c.toNat - 48) else none

def parse4Digits : List Char → Option (Nat × List Char)
  | a :: b :: c :: d :: rest =>
      match digitOf a, digitOf b, digitOf c, digitOf d with
      | some w, some x, some y, some z => some (w * 1000 + x * 100 + y * 10 + z, rest)
      | _, _, _, _ => none
  | _ => none

/-- A one-or-two-digit `strptime` field, two digits preferred, each
    alternative constrained to `lo..hi` as the format's pattern is. -/
def parse2or1 (lo hi : Nat) : List Char → Option (Nat × List Char)
  | a :: b :: rest =>
      (match digitOf a, digitOf b with
      | some x, some y =>
          let v := x * 10 + y
          if lo ≤ v ∧ v ≤ hi then some (v, rest)
          else if lo ≤ x ∧ x ≤ hi then some (x, b :: rest)
          else none
      | some x, none =>
          if lo ≤ x ∧ x ≤ hi then some (x, b :: rest) else none
      | none, _ => none)
  | [a] =>
      (match digitOf a with
      | some x => if lo ≤ x ∧ x ≤ hi then some (x, []) else none
      | none => none)
  | [] => none

def expectCh (c : Char) : List Char → Option (List Char)
  | x :: r => if x = c then some r else none
  | [] => none

def parseFracPart (cs : List Char) : Option (Nat × List Char) :=
  let ds := (cs.takeWhile Char.isDigit).take 6
  if ds.isEmpty then none
  else some (digitsNat ds * 10 ^ (6 - ds.length), cs.drop ds.length)

/-- Modelled from the spec: `datetime.datetime.strptime` restricted to the two
    accepted forms `%Y-%m-%dT%H:%M:%S` and `%Y-%m-%dT%H:%M:%S.%f`, optionally
    with a trailing literal `Z`, validating calendar ranges the way the
    datetime constructor does. -/
def strptimeISO (s : String) (frac z : Bool) : Option PyDatetime := do
  let cs := s.data
  let (y, cs) ← parse4Digits cs
  let cs ← expectCh '-' cs
  let (mo, cs) ← parse2or1 1 12 cs
  let cs ← expectCh '-' cs
  let (d, cs) ← parse2or1 1 31 cs
  let cs ← expectCh 'T' cs
  let (h, cs) ← parse2or1 0 23 cs
  let cs ← expectCh ':' cs
  let (mi, cs) ← parse2or1 0 59 cs
  let cs ← expectCh ':' cs
  let (sec, cs) ← parse2or1 0 61 cs
  let (us, cs) ←
    if frac then do
      let cs2 ← expectCh '.' cs
      parseFracPart cs2
    else pure (0, cs)
  let cs ← if z then expectCh 'Z' cs else pure cs
  if cs.isEmpty ∧ 1 ≤ y ∧ d ≤ monthDays y mo ∧ sec ≤ 59 then
    some (.ofParts y mo d h mi sec us)
  else none

/-- `process_data_timestamp`: numeric timestamps convert from epoch, native
    instants pass through, other values go through the `'.' in`/`'Z' in`
    format choice and `strptime`; conversion and parse failures delete the
    field; `in` on a non-container raises an unhandled `TypeError`. -/
def process_data_timestamp (data : RecordT) : Except Exc RecordT :=
  match lookupRec data "timestamp" with
  | none => .ok data
  | some v =>
      if is_float v then
        match fromtimestamp (numVal v) with
        | some d => .ok (setRec data "timestamp" (.dt d))
        | none => .ok (eraseRec data "timestamp")
      else
        match v with
        | .dt _ => .ok data
        | _ =>
            match pyContains v '.' with
            | none => .error (.uncaught "TypeError")
            | some hasDot =>
                match pyContains v 'Z' with
                | none => .error (.uncaught "TypeError")
                | some hasZ =>
                    match v with
                    | .str s =>
                        (match strptimeISO s hasDot hasZ with
                        | some d => .ok (setRec data "timestamp" (.dt d))
                        | none => .ok (eraseRec data "timestamp"))
                    | _ => .ok (eraseRec data "timestamp")

/-- The `if 'timestamp' in data` guard of `insert_data_to_database`. -/
def normalize_timestamp (data : RecordT) : Except Exc RecordT :=
  if containsKey data "timestamp" then process_data_timestamp data else .ok data

def insert_data_to_database (env : Env) (data : RecordT) : Except Exc Unit :=
  match normalize_timestamp data with
  | .error e => .error e
  | .ok d =>
      match env.storage d with
      | some emsg => .error (.api (APIErrorE emsg))
      | none => .ok ()

/-! ### The `store` view -/

/-- The body-decoding segment of `store`: bodies that start with a brace skip
    binary decoding, everything else goes through
    `decode_and_decompress_data`; then `safely_load_json_string`. -/
def decodeBody (data : List Nat) : Except Exc RecordT :=
  match (if data.head? = some 123 then Except.ok data
         else decode_and_decompress_data data) with
  | .error e => .error e
  | .ok d => safely_load_json_string d

/-- `store`: pick the credential path by priority, resolve, decode, check
    tenant consistency, normalise and insert; `APIError`s become HTTP
    responses, anything else escapes the view unhandled. -/
def store (env : Env) (r : Request) : Except String HttpResponse :=
  match
    (match
      (if truthyAV (extract_auth_vars r) then
        project_from_auth_vars env ((extract_auth_vars r).getD []) r.raw_post_data
      else if truthyOpt (assocGet r.queryGET "api_key") &&
              truthyOpt (assocGet r.queryGET "project_id") && r.is_secure then
        (project_from_api_key_and_id env ((assocGet r.queryGET "api_key").getD "")
          ((assocGet r.queryGET "project_id").getD "")).map some
      else if truthyOpt (assocGet r.queryGET "project_id") && r.user_authenticated then
        (project_from_id env r).map some
      else .error (.api APIUnauthorizedE)) with
    | .error e => (.error e : Except Exc HttpResponse)
    | .ok project =>
        match decodeBody r.raw_post_data with
        | .error e => .error e
        | .ok record =>
            match ensure_valid_project_id project record with
            | .error e => .error e
            | .ok record2 =>
                match insert_data_to_database env record2 with
                | .error e => .error e
                | .ok _ => .ok ⟨"", 200⟩) with
  | .ok resp => .ok resp
  | .error (.api e) => .ok ⟨e.msg, e.status⟩
  | .error (.uncaught n) => .error n

/-! ### Spec-side dispatch (for the path-priority claim) -/

inductive CredPath where
  | signed
  | apikey
  | session
  deriving DecidableEq

/-- The spec's priority rule: signed header first, then API key over TLS,
    then authenticated session, else no path. -/
def credentialPath (r : Request) : Option CredPath :=
  if truthyAV (extract_auth_vars r) then some .signed
  else if truthyOpt (assocGet r.queryGET "api_key") &&
          truthyOpt (assocGet r.queryGET "project_id") && r.is_secure then some .apikey
  else if truthyOpt (assocGet r.queryGET "project_id") && r.user_authenticated then
    some .session
  else none

def resolveVia (env : Env) (r : Request) : CredPath → Except Exc (Option Project)
  | .signed => project_from_auth_vars env ((extract_auth_vars r).getD []) r.raw_post_data
  | .apikey =>
      (project_from_api_key_and_id env ((assocGet r.queryGET "api_key").getD "")
        ((assocGet r.queryGET "project_id").getD "")).map some
  | .session => (project_from_id env r).map some

/-- The path-independent tail of admission: decode, tenant check, insert. -/
def admitResolved (env : Env) (r : Request) (project : Option Project) :
    Except Exc HttpResponse :=
  match decodeBody r.raw_post_data with
  | .error e => .error e
  | .ok record =>
      match ensure_valid_project_id project record with
      | .error e => .error e
      | .ok record2 =>
          match insert_data_to_database env record2 with
          | .error e => .error e
          | .ok _ => .ok ⟨"", 200⟩

/-- How an escaping exception surfaces from the view. -/
def excResult : Exc → Except String HttpResponse
  | .api e => .ok ⟨e.msg, e.status⟩
  | .uncaught n => .error n

/-- Spec-side admission: dispatch on the priority-selected credential path,
    with a path failure terminal. -/
def specDispatch (env : Env) (r : Request) : Except String HttpResponse :=
  match credentialPath r with
  | none => excResult (.api APIUnauthorizedE)
  | some p =>
      match resolveVia env r p with
      | .error e => excResult e
      | .ok proj =>
          match admitResolved env r proj with
          | .error e => excResult e
          | .ok resp => .ok resp

/-! ### Concrete environments and requests used as test inputs -/

/-- A directory entry for tenant 42 whose membership lacks `add_message`. -/
def memberNoPerm : ProjectMember := ⟨"k", "s", "u", [], ⟨42⟩⟩

/-- A directory entry for tenant 42 with the `add_message` permission. -/
def memberOk : ProjectMember := ⟨"k", "s", "u", ["add_message"], ⟨42⟩⟩

/-- An environment with an empty tenant directory. -/
def env0 : Env := ⟨[], "master", 1000, fun _ => none⟩

/-- An environment whose only member lacks the submit permission. -/
def envNoPerm : Env := ⟨[memberNoPerm], "master", 1000, fun _ => none⟩

/-- An environment whose only member holds the submit permission. -/
def envOk : Env := ⟨[memberOk], "master", 1000, fun _ => none⟩

/-- A TLS request presenting `api_key=k`, `project_id=42` and body `[123, 125]`
    (the two bytes of an empty JSON object). -/
def reqTLS : Request := ⟨[], [("api_key", "k"), ("project_id", "42")], true, false, "", [123, 125]⟩

/-- A request presenting no credentials at all. -/
def reqEmpty : Request := ⟨[], [], false, false, "", [123, 125]⟩

/-! ## Theorems -/

/-! ### Base64 round-trip -/

theorem decChar_encChar : ∀ i < 64, decChar (encChar i) = some i := by decide

theorem isB64_encChar : ∀ i < 64, isB64 (encChar i) = true := by decide

theorem encChar_ne_61 : ∀ i < 64, encChar i ≠ 61 := by decide

theorem encChar_lt_123 : ∀ i < 64, encChar i < 123 := by decide

theorem isB64_61 : isB64 61 = true := by decide

theorem filter_b64encode (x : List Nat) (h : ∀ b ∈ x, b < 256) :
    (b64encode x).filter isB64 = b64encode x := by
  induction x using b64encode.induct with
  | case1 => rfl
  | case2 a =>
      have ha : a < 256 := h a (by simp)
      simp [b64encode, List.filter,
        isB64_encChar (a / 4) (by omega), isB64_encChar (a % 4 * 16) (by omega), isB64_61]
  | case3 a b =>
      have ha : a < 256 := h a (by simp)
      have hb : b < 256 := h b (by simp)
      simp [b64encode, List.filter,
        isB64_encChar (a / 4) (by omega), isB64_encChar (a % 4 * 16 + b / 16) (by omega),
        isB64_encChar (b % 16 * 4) (by omega), isB64_61]
  | case4 a b c rest ih =>
      have ha : a < 256 := h a (by simp)
      have hb : b < 256 := h b (by simp)
      have hc : c < 256 := h c (by simp)
      have hrest : ∀ x ∈ rest, x < 256 := fun x hx => h x (by simp [hx])
      simp [b64encode, List.filter,
        isB64_encChar (a / 4) (by omega), isB64_encChar (a % 4 * 16 + b / 16) (by omega),
        isB64_encChar (b % 16 * 4 + c / 64) (by omega), isB64_encChar (c % 64) (by omega),
        ih hrest]

theorem length_b64encode (x : List Nat) : (b64encode x).length % 4 = 0 := by
  induction x using b64encode.induct with
  | case1 => rfl
  | case2 a => simp [b64encode]
  | case3 a b => simp [b64encode]
  | case4 a b c rest ih => simp [b64encode]; omega

theorem b64groups_encode (x : List Nat) (h : ∀ b ∈ x, b < 256) :
    b64groups (b64encode x) = .ok x := by
  induction x using b64encode.induct with
  | case1 => rfl
  | case2 a =>
      have ha : a < 256 := h a (by simp)
      simp only [b64encode, b64groups,
        decChar_encChar (a / 4) (by omega), decChar_encChar (a % 4 * 16) (by omega)]
      simp only [if_true]
      have : a / 4 * 4 + a % 4 * 16 / 16 = a := by omega
      rw [this]
  | case3 a b =>
      have ha : a < 256 := h a (by simp)
      have hb : b < 256 := h b (by simp)
      simp only [b64encode, b64groups,
        decChar_encChar (a / 4) (by omega), decChar_encChar (a % 4 * 16 + b / 16) (by omega)]
      rw [if_neg (encChar_ne_61 (b % 16 * 4) (by omega))]
      simp only [decChar_encChar (b % 16 * 4) (by omega)]
      simp only [if_true]
      have h1 : a / 4 * 4 + (a % 4 * 16 + b / 16) / 16 = a := by omega
      have h2 : (a % 4 * 16 + b / 16) % 16 * 16 + b % 16 * 4 / 4 = b := by omega
      rw [h1, h2]
  | case4 a b c rest ih =>
      have ha : a < 256 := h a (by simp)
      have hb : b < 256 := h b (by simp)
      have hc : c < 256 := h c (by simp)
      have hrest : ∀ x ∈ rest, x < 256 := fun x hx => h x (by simp [hx])
      simp only [b64encode, b64groups,
        decChar_encChar (a / 4) (by omega), decChar_encChar (a % 4 * 16 + b / 16) (by omega)]
      rw [if_neg (encChar_ne_61 (b % 16 * 4 + c / 64) (by omega))]
      simp only [decChar_encChar (b % 16 * 4 + c / 64) (by omega)]
      rw [if_neg (encChar_ne_61 (c % 64) (by omega))]
      simp only [decChar_encChar (c % 64) (by omega), ih hrest, Except.map]
      have h1 : a / 4 * 4 + (a % 4 * 16 + b / 16) / 16 = a := by omega
      have h2 : (a % 4 * 16 + b / 16) % 16 * 16 + (b % 16 * 4 + c / 64) / 4 = b := by omega
      have h3 : (b % 16 * 4 + c / 64) % 4 * 64 + c % 64 = c := by omega
      rw [h1, h2, h3]

theorem b64decode_encode (x : List Nat) (h : ∀ b ∈ x, b < 256) :
    b64decode (b64encode x) = .ok x := by
  simp only [b64decode, filter_b64encode x h, length_b64encode x, if_pos]
  exact b64groups_encode x h

theorem b64encode_head_lt (x : List Nat) (h : ∀ b ∈ x, b < 256) :
    ∀ v, (b64encode x).head? = some v → v < 123 := by
  intro v hv
  match x, hv with
  | [a], hv =>
      have ha : a < 256 := h a (by simp)
      simp [b64encode] at hv
      exact hv ▸ encChar_lt_123 (a / 4) (by omega)
  | [a, b], hv =>
      have ha : a < 256 := h a (by simp)
      simp [b64encode] at hv
      exact hv ▸ encChar_lt_123 (a / 4) (by omega)
  | a :: b :: c :: rest, hv =>
      have ha : a < 256 := h a (by simp)
      simp [b64encode] at hv
      exact hv ▸ encChar_lt_123 (a / 4) (by omega)

/-! ### Record-operation frame lemmas -/

theorem lookupRec_cons (a : String) (b : JVal) (tl : RecordT) (k2 : String) :
    lookupRec ((a, b) :: tl) k2 = if a = k2 then some b else lookupRec tl k2 := by
  by_cases h : a = k2
  · rw [if_pos h]
    simp [lookupRec, List.find?_cons_of_pos, h]
  · rw [if_neg h]
    have : (((a, b) : String × JVal).1 == k2) = false := by simp [h]
    simp [lookupRec, List.find?_cons_of_neg, this]

theorem lookup_map_replace (l : RecordT) (k k2 : String) (v : JVal) (h : k2 ≠ k) :
    lookupRec (l.map (fun p => if p.1 == k then (k, v) else p)) k2 = lookupRec l k2 := by
  induction l with
  | nil => rfl
  | cons hd tl ih =>
      obtain ⟨a, b⟩ := hd
      simp only [List.map_cons]
      by_cases hak : a = k
      · have hcond : (((a, b) : String × JVal).1 == k) = true := by simp [hak]
        rw [if_pos hcond, lookupRec_cons, lookupRec_cons]
        rw [if_neg (Ne.symm h), if_neg (show ¬ a = k2 by rw [hak]; exact Ne.symm h)]
        exact ih
      · have hcond : ¬ (((a, b) : String × JVal).1 == k) = true := by simp [hak]
        rw [if_neg hcond, lookupRec_cons, lookupRec_cons]
        by_cases hak2 : a = k2
        · rw [if_pos hak2, if_pos hak2]
        · rw [if_neg hak2, if_neg hak2]; exact ih

theorem lookup_append_single (l : RecordT) (k k2 : String) (v : JVal) (h : k2 ≠ k) :
    lookupRec (l ++ [(k, v)]) k2 = lookupRec l k2 := by
  induction l with
  | nil =>
      rw [List.nil_append, lookupRec_cons, if_neg (Ne.symm h)]
  | cons hd tl ih =>
      obtain ⟨a, b⟩ := hd
      rw [List.cons_append, lookupRec_cons, lookupRec_cons]
      by_cases hak2 : a = k2
      · rw [if_pos hak2, if_pos hak2]
      · rw [if_neg hak2, if_neg hak2]; exact ih

theorem lookup_setRec_ne (l : RecordT) (k k2 : String) (v : JVal) (h : k2 ≠ k) :
    lookupRec (setRec l k v) k2 = lookupRec l k2 := by
  unfold setRec
  by_cases hc : containsKey l k
  · rw [if_pos hc]; exact lookup_map_replace l k k2 v h
  · rw [if_neg hc]; exact lookup_append_single l k k2 v h

theorem lookup_eraseRec_ne (l : RecordT) (k k2 : String) (h : k2 ≠ k) :
    lookupRec (eraseRec l k) k2 = lookupRec l k2 := by
  induction l with
  | nil => rfl
  | cons hd tl ih =>
      obtain ⟨a, b⟩ := hd
      by_cases hak : a = k
      · have hcond : (((a, b) : String × JVal).1 != k) = false := by simp [bne, hak]
        unfold eraseRec
        rw [List.filter_cons, hcond]
        simp only [Bool.false_eq_true, if_false]
        rw [lookupRec_cons, if_neg (show ¬ a = k2 by rw [hak]; exact Ne.symm h)]
        exact ih
      · have hcond : (((a, b) : String × JVal).1 != k) = true := by simp [bne, hak]
        unfold eraseRec
        rw [List.filter_cons, hcond]
        simp only [if_true]
        rw [lookupRec_cons, lookupRec_cons]
        by_cases hak2 : a = k2
        · rw [if_pos hak2, if_pos hak2]
        · rw [if_neg hak2, if_neg hak2]; exact ih

theorem toDigitsCore_length_lt (b : Nat) :
    ∀ (fuel n : Nat) (ds : List Char), ds.length < (Nat.toDigitsCore b (fuel + 1) n ds).length := by
  intro fuel
  induction fuel with
  | zero =>
      intro n ds
      simp only [Nat.toDigitsCore]
      split
      · simp
      · simp [Nat.toDigitsCore]
  | succ f ih =>
      intro n ds
      simp only [Nat.toDigitsCore]
      split
      · simp
      · exact lt_trans (by simp) (ih (n / b) (Nat.digitChar (n % b) :: ds))

theorem natToString_ne_empty (n : Nat) : toString n ≠ "" := by
  show Nat.repr n ≠ ""
  unfold Nat.repr Nat.toDigits
  intro hcontra
  have hlen := toDigitsCore_length_lt 10 n n []
  have : (Nat.toDigitsCore 10 (n + 1) n []).asString = "" := hcontra
  have hnil : Nat.toDigitsCore 10 (n + 1) n [] = [] := by
    have := congrArg String.data this
    simpa [List.asString] using this
  rw [hnil] at hlen
  simp at hlen

/-! ### Additional record lemmas -/

theorem contains_false_lookup (l : RecordT) (k : String) (h : containsKey l k = false) :
    lookupRec l k = none := by
  induction l with
  | nil => rfl
  | cons hd tl ih =>
      obtain ⟨a, b⟩ := hd
      simp only [containsKey, List.any_cons, Bool.or_eq_false_iff] at h
      have ha : ¬ a = k := by simpa using h.1
      rw [lookupRec_cons, if_neg (fun hc => ha hc)]
      exact ih (by simpa [containsKey] using h.2)

theorem lookup_append_self (l : RecordT) (k : String) (v : JVal)
    (h : lookupRec l k = none) : lookupRec (l ++ [(k, v)]) k = some v := by
  induction l with
  | nil => rw [List.nil_append, lookupRec_cons, if_pos rfl]
  | cons hd tl ih =>
      obtain ⟨a, b⟩ := hd
      rw [lookupRec_cons] at h
      by_cases hak : a = k
      · rw [if_pos hak] at h; exact absurd h (by simp)
      · rw [if_neg hak] at h
        rw [List.cons_append, lookupRec_cons, if_neg hak]
        exact ih h

theorem lookup_map_replace_self (l : RecordT) (k : String) (v : JVal)
    (h : containsKey l k = true) :
    lookupRec (l.map (fun p => if p.1 == k then (k, v) else p)) k = some v := by
  induction l with
  | nil => simp [containsKey] at h
  | cons hd tl ih =>
      obtain ⟨a, b⟩ := hd
      simp only [List.map_cons]
      by_cases hak : a = k
      · have hcond : (((a, b) : String × JVal).1 == k) = true := by simp [hak]
        rw [if_pos hcond, lookupRec_cons, if_pos rfl]
      · have hcond : ¬ (((a, b) : String × JVal).1 == k) = true := by simp [hak]
        rw [if_neg hcond, lookupRec_cons, if_neg hak]
        apply ih
        have h2 := h
        simp only [containsKey, List.any_cons, Bool.or_eq_true] at h2
        rcases h2 with h2 | h2
        · exact absurd (by simpa using h2) hak
        · exact h2

theorem lookup_setRec_self (l : RecordT) (k : String) (v : JVal) :
    lookupRec (setRec l k v) k = some v := by
  unfold setRec
  by_cases hc : containsKey l k
  · rw [if_pos hc]; exact lookup_map_replace_self l k v hc
  · rw [if_neg hc]
    exact lookup_append_self l k v (contains_false_lookup l k (by simpa using hc))

/-! ### Claim theorems -/

/-- C4: in the signed path, any request whose timestamp parses as a float and
    lies more than 3600 seconds in the past fails with the Expired outcome
    (HTTP 410), whatever the presented signature is. -/
theorem C4_replay_window (now : ℚ) (message : List Nat)
    (signature timestamp secret_key : String) (q : ℚ)
    (hparse : pyFloatParse timestamp = some (.finite q)) (hexp : q < now - 3600) :
    validate_hmac now message signature timestamp secret_key =
      .error (.api (APITimestampExpiredE "Message has expired")) := by
  unfold validate_hmac
  rw [hparse]
  simp [pyLt, hexp]

theorem C4_replay_window_witness :
    validate_hmac 10000 [] "x" "1" "k" =
      .error (.api (APITimestampExpiredE "Message has expired")) :=
  C4_replay_window 10000 [] "x" "1" "k" 1 (by decide) (by norm_num)

/-- C9: in `validate_hmac`, an unparseable timestamp yields the 400-class
    `Invalid timestamp` error before the replay or signature comparisons, and
    an expired parseable timestamp yields 410 before the signature comparison
    — both regardless of the presented signature. -/
theorem C9_validation_precedence (now : ℚ) (message : List Nat)
    (signature timestamp secret_key : String) :
    (pyFloatParse timestamp = none →
      validate_hmac now message signature timestamp secret_key =
        .error (.api (APIErrorE "Invalid timestamp")))
    ∧ (∀ tf, pyFloatParse timestamp = some tf → pyLt tf (now - 3600) = true →
        validate_hmac now message signature timestamp secret_key =
          .error (.api (APITimestampExpiredE "Message has expired"))) := by
  constructor
  · intro h
    unfold validate_hmac
    rw [h]
  · intro tf h1 h2
    unfold validate_hmac
    rw [h1]
    simp [h2]

theorem C9_validation_precedence_witness :
    validate_hmac 1000 [] "sig" "abc" "k" = .error (.api (APIErrorE "Invalid timestamp"))
    ∧ validate_hmac 9000 [] "sig" "2" "k" =
        .error (.api (APITimestampExpiredE "Message has expired")) :=
  ⟨(C9_validation_precedence 1000 [] "sig" "abc" "k").1 (by decide),
   (C9_validation_precedence 9000 [] "sig" "2" "k").2 (.finite 2) (by decide)
     (by simp only [pyLt, decide_eq_true_eq]; norm_num)⟩

/-- C2 counterexample: with a resolved tenant and a record carrying no
    `project` field at all, admission does not proceed — the comparison uses
    the empty string and fails with Forbidden `Invalid credentials`. -/
theorem C2_absent_project_counterexample :
    ensure_valid_project_id (some ⟨1⟩) [("message", .str "hi")] =
      .error (.api (APIForbiddenE "Invalid credentials")) := rfl

/-- C2 (amended): with a resolved tenant, a present `project` field admits
    exactly when its canonical string form equals the tenant identifier's,
    and an absent `project` field is compared as the empty string, which never
    matches, so admission fails with Forbidden; with no resolved tenant the
    record's `project` is forced to the default identifier 1, overwriting any
    caller-supplied value. -/
theorem C2_tenant_consistency_amended (p : Project) (data : RecordT) :
    (∀ v, lookupRec data "project" = some v → pyStr v = toString p.pk →
        ensure_valid_project_id (some p) data = .ok data)
    ∧ (∀ v, lookupRec data "project" = some v → pyStr v ≠ toString p.pk →
        ensure_valid_project_id (some p) data =
          .error (.api (APIForbiddenE "Invalid credentials")))
    ∧ (lookupRec data "project" = none →
        ensure_valid_project_id (some p) data =
          .error (.api (APIForbiddenE "Invalid credentials")))
    ∧ ensure_valid_project_id none data = .ok (setRec data "project" (.int 1))
    ∧ lookupRec (setRec data "project" (.int 1)) "project" = some (.int 1) := by
  refine ⟨?_, ?_, ?_, rfl, lookup_setRec_self data "project" (.int 1)⟩
  · intro v hv heq
    unfold ensure_valid_project_id
    rw [hv]
    simp [heq]
  · intro v hv hne
    unfold ensure_valid_project_id
    rw [hv]
    simp [hne]
  · intro hnone
    unfold ensure_valid_project_id
    rw [hnone]
    simp [Ne.symm (natToString_ne_empty p.pk)]

theorem C2_tenant_consistency_witness :
    ensure_valid_project_id (some ⟨42⟩) [("project", JVal.str "42")] =
        .ok [("project", JVal.str "42")]
    ∧ ensure_valid_project_id (some ⟨42⟩) [("project", JVal.str "99")] =
        .error (.api (APIForbiddenE "Invalid credentials"))
    ∧ ensure_valid_project_id none [("message", JVal.str "hi")] =
        .ok (setRec [("message", JVal.str "hi")] "project" (.int 1)) :=
  ⟨(C2_tenant_consistency_amended ⟨42⟩ [("project", JVal.str "42")]).1
      (JVal.str "42") rfl (by decide),
   (C2_tenant_consistency_amended ⟨42⟩ [("project", JVal.str "99")]).2.1
      (JVal.str "99") rfl (by decide),
   (C2_tenant_consistency_amended ⟨42⟩ [("message", JVal.str "hi")]).2.2.2.1⟩

/-- C1 (code bug): in the API-key-over-TLS path, a key that resolves in the
    directory but whose membership lacks `add_message` does not produce the
    401 the unknown-key case produces — the `raise ProjectMember.DoesNotExist`
    sits outside its handler and escapes the view as an unhandled exception. -/
theorem C1_missing_permission_uncaught :
    store envNoPerm reqTLS = .error "DoesNotExist"
    ∧ store env0 reqTLS = .ok ⟨"Unauthorized", 401⟩ := ⟨rfl, rfl⟩

/-- C3 counterexample: a body that is the base64 encoding of the JSON text
    `[1, 2]` — valid JSON, but not a mapping — does not fail with a
    Forbidden-class outcome: the key coercion raises an unhandled
    `AttributeError`. -/
theorem C3_nonmapping_counterexample :
    decodeBody (b64encode [91, 49, 44, 32, 50, 93]) = .error (.uncaught "AttributeError") := rfl

/-- C3 (amended): failures inside base64 decoding and JSON parsing collapse
    to a single Forbidden-class outcome embedding the error class name and
    description (and zlib failures never surface: decompression falls back to
    the raw decoded bytes); but a body parsing to a non-mapping JSON value
    escapes as an unhandled error instead. -/
theorem C3_decode_failure_forbidden_amended (d : List Nat) (e : PyExc) :
    (d.head? ≠ some 123 → b64decode d = .error e →
      decodeBody d = .error (.api (APIForbiddenE
        ("Bad data decoding request (" ++ e.name ++ ", " ++ e.msg ++ ")"))))
    ∧ (jsonLoads d = .error e →
      safely_load_json_string d = .error (.api (APIForbiddenE
        ("Bad data reconstructing object (" ++ e.name ++ ", " ++ e.msg ++ ")")))) := by
  constructor
  · intro hh hb
    unfold decodeBody
    rw [if_neg hh]
    unfold decode_and_decompress_data
    rw [hb]
  · intro hj
    unfold safely_load_json_string
    rw [hj]

theorem C3_decode_failure_witness :
    decodeBody [65] = .error (.api (APIForbiddenE
        "Bad data decoding request (Error, Incorrect padding)"))
    ∧ safely_load_json_string [65] = .error (.api (APIForbiddenE
        "Bad data reconstructing object (ValueError, No JSON object could be decoded)")) :=
  ⟨(C3_decode_failure_forbidden_amended [65] ⟨"Error", "Incorrect padding"⟩).1
      (by decide) rfl,
   (C3_decode_failure_forbidden_amended [65]
      ⟨"ValueError", "No JSON object could be decoded"⟩).2 rfl⟩

/-- C8: timestamp normalisation — a numeric value converts from Unix epoch
    to an instant (the field is dropped if conversion fails), a native
    instant passes through unchanged, and a string value is parsed with the
    `%Y-%m-%dT%H:%M:%S` format, with fractional seconds when it contains a
    dot and a trailing `Z` when it contains one, the field being dropped on
    parse failure; the request never fails on these values. -/
theorem C8_timestamp_normalization (data : RecordT) (v : JVal)
    (hts : lookupRec data "timestamp" = some v) :
    (is_float v = true →
      process_data_timestamp data = .ok (match fromtimestamp (numVal v) with
        | some d => setRec data "timestamp" (.dt d)
        | none => eraseRec data "timestamp"))
    ∧ (∀ d, v = .dt d → process_data_timestamp data = .ok data)
    ∧ (∀ s, v = .str s →
        process_data_timestamp data =
          .ok (match strptimeISO s (s.data.contains '.') (s.data.contains 'Z') with
            | some d => setRec data "timestamp" (.dt d)
            | none => eraseRec data "timestamp")) := by
  refine ⟨?_, ?_, ?_⟩
  · intro hf
    unfold process_data_timestamp
    rw [hts]
    cases v with
    | int n => cases h : fromtimestamp (numVal (JVal.int n)) <;> simp [is_float, h]
    | float q => cases h : fromtimestamp (numVal (JVal.float q)) <;> simp [is_float, h]
    | null => simp [is_float] at hf
    | bool b => simp [is_float] at hf
    | str s => simp [is_float] at hf
    | arr xs => simp [is_float] at hf
    | obj kvs => simp [is_float] at hf
    | dt d => simp [is_float] at hf
  · intro d hd
    subst hd
    unfold process_data_timestamp
    rw [hts]
    rfl
  · intro s hs
    subst hs
    unfold process_data_timestamp
    rw [hts]
    show (match strptimeISO s (s.data.contains '.') (s.data.contains 'Z') with
      | some d => Except.ok (setRec data "timestamp" (.dt d))
      | none => Except.ok (eraseRec data "timestamp")) = _
    cases h : strptimeISO s (s.data.contains '.') (s.data.contains 'Z') <;> simp [h]

theorem C8_timestamp_normalization_witness :
    process_data_timestamp [("timestamp", JVal.int 1704110400)] =
        .ok [("timestamp", JVal.dt (.ofEpoch 1704110400))]
    ∧ process_data_timestamp [("timestamp", JVal.str "2024-01-01T12:00:00Z")] =
        .ok [("timestamp", JVal.dt (.ofParts 2024 1 1 12 0 0 0))]
    ∧ process_data_timestamp [("timestamp", JVal.str "not-a-date")] = .ok []
    ∧ process_data_timestamp [("timestamp", JVal.dt (.ofEpoch 5))] =
        .ok [("timestamp", JVal.dt (.ofEpoch 5))] :=
  ⟨by rw [(C8_timestamp_normalization [("timestamp", JVal.int 1704110400)]
        (JVal.int 1704110400) rfl).1 rfl]; rfl,
   by rw [(C8_timestamp_normalization [("timestamp", JVal.str "2024-01-01T12:00:00Z")]
        (JVal.str "2024-01-01T12:00:00Z") rfl).2.2 "2024-01-01T12:00:00Z" rfl]; rfl,
   by rw [(C8_timestamp_normalization [("timestamp", JVal.str "not-a-date")]
        (JVal.str "not-a-date") rfl).2.2 "not-a-date" rfl]; rfl,
   by rw [(C8_timestamp_normalization [("timestamp", JVal.dt (.ofEpoch 5))]
        (JVal.dt (.ofEpoch 5)) rfl).2.1 (.ofEpoch 5) rfl]⟩

/-- C10: the timestamp-normalisation step changes at most the `timestamp`
    key — every other key keeps its value — and a record with no `timestamp`
    key passes through entirely unchanged. -/
theorem C10_normalization_frame (data data2 : RecordT) :
    (normalize_timestamp data = .ok data2 →
      ∀ k, k ≠ "timestamp" → lookupRec data2 k = lookupRec data k)
    ∧ (containsKey data "timestamp" = false → normalize_timestamp data = .ok data) := by
  constructor
  · intro h k hk
    unfold normalize_timestamp at h
    have hshape : data2 = data ∨ (∃ d, data2 = setRec data "timestamp" (.dt d))
        ∨ data2 = eraseRec data "timestamp" := by
      split at h
      · unfold process_data_timestamp at h
        repeat' split at h
        all_goals first
          | exact Except.noConfusion h
          | (cases h; exact Or.inl rfl)
          | (cases h; exact Or.inr (Or.inl ⟨_, rfl⟩))
          | (cases h; exact Or.inr (Or.inr rfl))
      · cases h; exact Or.inl rfl
    rcases hshape with rfl | ⟨d, rfl⟩ | rfl
    · rfl
    · exact lookup_setRec_ne data "timestamp" k _ hk
    · exact lookup_eraseRec_ne data "timestamp" k hk
  · intro hc
    unfold normalize_timestamp
    rw [if_neg (by simp [hc])]

theorem C10_normalization_frame_witness :
    lookupRec [("a", JVal.int 7), ("timestamp", JVal.dt (.ofEpoch 5))] "a" =
        lookupRec [("a", JVal.int 7), ("timestamp", JVal.int 5)] "a"
    ∧ normalize_timestamp [("a", JVal.int 7)] = .ok [("a", JVal.int 7)] :=
  ⟨(C10_normalization_frame [("a", JVal.int 7), ("timestamp", JVal.int 5)]
      [("a", JVal.int 7), ("timestamp", JVal.dt (.ofEpoch 5))]).1 rfl "a" (by decide),
   (C10_normalization_frame [("a", JVal.int 7)] [("a", JVal.int 7)]).2 rfl⟩

/-- C5: the signed-header path — a missing signature or timestamp field gives
    Unauthorized (401); a present API key that does not resolve, or resolves
    without the `add_message` permission, gives Forbidden (403); with a
    resolving permitted key, verification uses the member's per-key secret and
    the resolved tenant is that member's project; without an API key,
    verification uses the shared master secret and the resolved tenant is
    `None` — exactly the master-secret case. -/
theorem C5_signed_header_path (env : Env) (av : List (String × String)) (data : List Nat) :
    ((avGet av "sentry_signature" = none ∨ avGet av "sentry_timestamp" = none) →
      project_from_auth_vars env av data = .error (.api APIUnauthorizedE))
    ∧ (∀ s t k, avGet av "sentry_signature" = some s → s ≠ "" →
        avGet av "sentry_timestamp" = some t → t ≠ "" →
        avGet av "sentry_key" = some k → k ≠ "" →
        ((findByKey env.db k = none →
            project_from_auth_vars env av data =
              .error (.api (APIForbiddenE "Invalid signature")))
         ∧ (∀ pm, findByKey env.db k = some pm → hasPerm pm "add_message" = false →
            project_from_auth_vars env av data =
              .error (.api (APIForbiddenE "Invalid signature")))
         ∧ (∀ pm, findByKey env.db k = some pm → hasPerm pm "add_message" = true →
            project_from_auth_vars env av data =
              (validate_hmac env.now data s t pm.secret_key).map (fun _ => some pm.project))))
    ∧ (∀ s t, avGet av "sentry_signature" = some s → s ≠ "" →
        avGet av "sentry_timestamp" = some t → t ≠ "" →
        truthyOpt (avGet av "sentry_key") = false →
        project_from_auth_vars env av data =
          (validate_hmac env.now data s t env.key).map (fun _ => none)) := by
  refine ⟨?_, ?_, ?_⟩
  · intro hor
    unfold project_from_auth_vars
    rcases hor with h | h <;> simp [h, truthyOpt]
  · intro s t k hs hsne ht htne hk hkne
    refine ⟨?_, ?_, ?_⟩
    · intro hfind
      unfold project_from_auth_vars
      simp [hs, ht, hk, truthyOpt, hsne, htne, hkne, hfind]
    · intro pm hfind hperm
      unfold project_from_auth_vars
      simp [hs, ht, hk, truthyOpt, hsne, htne, hkne, hfind, hperm]
    · intro pm hfind hperm
      unfold project_from_auth_vars
      simp [hs, ht, hk, truthyOpt, hsne, htne, hkne, hfind, hperm]
  · intro s t hs hsne ht htne hkey
    unfold project_from_auth_vars
    have h1 : truthyOpt (some s) = true := by simp [truthyOpt, hsne]
    have h2 : truthyOpt (some t) = true := by simp [truthyOpt, htne]
    simp [hs, ht, h1, h2, hkey]

theorem C5_signed_header_path_witness :
    project_from_auth_vars env0 [] [] = .error (.api APIUnauthorizedE)
    ∧ project_from_auth_vars envNoPerm
        [("sentry_signature", "x"), ("sentry_timestamp", "1"), ("sentry_key", "k")] [] =
        .error (.api (APIForbiddenE "Invalid signature"))
    ∧ project_from_auth_vars envOk
        [("sentry_signature", "x"), ("sentry_timestamp", "1"), ("sentry_key", "k")] [] =
        (validate_hmac envOk.now [] "x" "1" memberOk.secret_key).map
          (fun _ => some memberOk.project)
    ∧ project_from_auth_vars env0
        [("sentry_signature", "x"), ("sentry_timestamp", "1")] [] =
        (validate_hmac env0.now [] "x" "1" env0.key).map (fun _ => none) :=
  ⟨(C5_signed_header_path env0 [] []).1 (Or.inl rfl),
   ((C5_signed_header_path envNoPerm
        [("sentry_signature", "x"), ("sentry_timestamp", "1"), ("sentry_key", "k")] []).2.1
        "x" "1" "k" rfl (by decide) rfl (by decide) rfl (by decide)).2.1 memberNoPerm rfl rfl,
   ((C5_signed_header_path envOk
        [("sentry_signature", "x"), ("sentry_timestamp", "1"), ("sentry_key", "k")] []).2.1
        "x" "1" "k" rfl (by decide) rfl (by decide) rfl (by decide)).2.2 memberOk rfl rfl,
   (C5_signed_header_path env0
        [("sentry_signature", "x"), ("sentry_timestamp", "1")] []).2.2
        "x" "1" rfl (by decide) rfl (by decide) rfl⟩

theorem decodeBody_brace (rest : List Nat) :
    decodeBody (123 :: rest) = safely_load_json_string (123 :: rest) := by
  unfold decodeBody
  rw [if_pos (show (123 :: rest).head? = some 123 from rfl)]

theorem decodeBody_enc (x : List Nat) (h256 : ∀ b ∈ x, b < 256)
    (hne : ¬ (b64encode x).head? = some 123) :
    decodeBody (b64encode x) =
      (match zlibDecompress x with
       | some unzipped => safely_load_json_string unzipped
       | none => safely_load_json_string x) := by
  unfold decodeBody
  rw [if_neg hne]
  unfold decode_and_decompress_data
  rw [b64decode_encode _ h256]
  cases h : zlibDecompress x <;> simp [h]

/-- C7: decode idempotence — for a JSON object text, the literal bytes, the
    base64 of their deflate compression, and the plain base64 of them all
    decode to the same result. -/
theorem C7_decode_idempotence (j : List Nat) (hb : ∀ b ∈ j, b < 256)
    (hj : j.head? = some 123) :
    decodeBody (b64encode (zlibCompress j)) = decodeBody j
    ∧ decodeBody (b64encode j) = decodeBody j := by
  obtain ⟨rest, rfl⟩ : ∃ rest, j = 123 :: rest := by
    cases j with
    | nil => simp at hj
    | cons a t =>
        simp at hj
        exact ⟨t, by rw [hj]⟩
  constructor
  · have hbytes : ∀ b ∈ zlibCompress (123 :: rest), b < 256 := by
      intro b hbm
      simp only [zlibCompress, List.mem_cons] at hbm
      rcases hbm with rfl | rfl | h
      · omega
      · omega
      · exact hb b (by simp [h])
    have hh : ¬ (b64encode (zlibCompress (123 :: rest))).head? = some 123 := by
      intro hcontra
      have := b64encode_head_lt _ hbytes 123 hcontra
      omega
    rw [decodeBody_enc _ hbytes hh, decodeBody_brace]
    rfl
  · have hh : ¬ (b64encode (123 :: rest)).head? = some 123 := by
      intro hcontra
      have := b64encode_head_lt _ hb 123 hcontra
      omega
    have hzl : zlibDecompress (123 :: rest) = none := by
      cases rest with
      | nil => rfl
      | cons a t => simp [zlibDecompress]
    rw [decodeBody_enc _ hb hh, hzl, decodeBody_brace]

theorem C7_decode_idempotence_witness :
    decodeBody (b64encode (zlibCompress [123, 125])) = decodeBody [123, 125]
    ∧ decodeBody (b64encode [123, 125]) = decodeBody [123, 125] :=
  C7_decode_idempotence [123, 125] (by decide) rfl

theorem store_selection_eq (env : Env) (r : Request) :
    (if truthyAV (extract_auth_vars r) then
        project_from_auth_vars env ((extract_auth_vars r).getD []) r.raw_post_data
      else if truthyOpt (assocGet r.queryGET "api_key") &&
              truthyOpt (assocGet r.queryGET "project_id") && r.is_secure then
        (project_from_api_key_and_id env ((assocGet r.queryGET "api_key").getD "")
          ((assocGet r.queryGET "project_id").getD "")).map some
      else if truthyOpt (assocGet r.queryGET "project_id") && r.user_authenticated then
        (project_from_id env r).map some
      else .error (.api APIUnauthorizedE))
    = (match credentialPath r with
       | none => .error (.api APIUnauthorizedE)
       | some p => resolveVia env r p) := by
  unfold credentialPath
  by_cases h1 : truthyAV (extract_auth_vars r) = true
  · simp [h1, resolveVia]
  · by_cases h2 : (truthyOpt (assocGet r.queryGET "api_key") &&
        truthyOpt (assocGet r.queryGET "project_id") && r.is_secure) = true
    · simp [h1, h2, resolveVia]
    · by_cases h3 : (truthyOpt (assocGet r.queryGET "project_id") && r.user_authenticated) = true
      · simp [h1, h2, h3, resolveVia]
      · simp [h1, h2, h3]

theorem store_wrap_eq (env : Env) (r : Request) (x : Except Exc (Option Project)) :
    (match (match x with
            | .error e => (.error e : Except Exc HttpResponse)
            | .ok project => admitResolved env r project) with
     | .ok resp => Except.ok resp
     | .error (.api e) => Except.ok ⟨e.msg, e.status⟩
     | .error (.uncaught n) => Except.error n)
    = (match x with
       | .error e => excResult e
       | .ok proj =>
           match admitResolved env r proj with
           | .error e => excResult e
           | .ok resp => Except.ok resp) := by
  cases x with
  | error e =>
      cases e with
      | api a => rfl
      | uncaught n => rfl
  | ok proj =>
      show (match admitResolved env r proj with
            | Except.ok resp => Except.ok resp
            | Except.error (.api e) => Except.ok ⟨e.msg, e.status⟩
            | Except.error (.uncaught n) => Except.error n)
         = (match admitResolved env r proj with
            | Except.error e => excResult e
            | Except.ok resp => Except.ok resp)
      cases admitResolved env r proj with
      | error e =>
          cases e with
          | api a => rfl
          | uncaught n => rfl
      | ok resp => rfl

/-- C6: credential-path priority — `store` coincides with dispatching on the
    priority-selected path (signed header first, then API key over TLS, then
    session); when no path is eligible the outcome is Unauthorized (401); and
    a failure of the selected path's resolver is terminal: the outcome is
    that failure regardless of what the later paths would have produced. -/
theorem C6_path_priority (env : Env) (r : Request) :
    store env r = specDispatch env r
    ∧ (credentialPath r = none → store env r = .ok ⟨"Unauthorized", 401⟩)
    ∧ (∀ p ex, credentialPath r = some p → resolveVia env r p = .error ex →
        store env r = excResult ex) := by
  have hmain : store env r = specDispatch env r := by
    unfold store specDispatch
    rw [store_selection_eq env r]
    cases hp : credentialPath r with
    | none => rfl
    | some p => exact store_wrap_eq env r (resolveVia env r p)
  refine ⟨hmain, ?_, ?_⟩
  · intro hnone
    rw [hmain]
    unfold specDispatch
    rw [hnone]
    rfl
  · intro p ex hp hres
    rw [hmain]
    unfold specDispatch
    rw [hp]
    show (match resolveVia env r p with
          | .error e => excResult e
          | .ok proj =>
              match admitResolved env r proj with
              | .error e => excResult e
              | .ok resp => Except.ok resp) = excResult ex
    rw [hres]

theorem C6_path_priority_witness :
    store env0 reqEmpty = .ok ⟨"Unauthorized", 401⟩
    ∧ store envNoPerm reqTLS = excResult (.uncaught "DoesNotExist") :=
  ⟨(C6_path_priority env0 reqEmpty).2.1 rfl,
   (C6_path_priority envNoPerm reqTLS).2.2 .apikey (.uncaught "DoesNotExist") rfl rfl⟩

end Sentry
